import Mathlib

/-!
Shallow embedding of the usage pacing calculator (`api/storage.py` /
`api/models.py`) and of the OAuth token lifecycle manager
(`src/oauth/tokens.py`) of the claude-usage-widget repository, with proofs
of the specified properties.

Conventions of the embedding:

* Instants of the local clock are integer counts of microseconds, with
  instant 0 falling on a Thursday at 00:00 local time (as 1970-01-01 did),
  so that Python weekday arithmetic (`Monday = 0`, ..., `Thursday = 3`)
  becomes `(day index + 3) mod 7`.  For the positive divisors used here,
  integer `/` and `%` on `ℤ` agree with Python floor division `//` and
  nonnegative remainder `%`.
* Real-valued arithmetic (Python floats) is modelled exactly over `ℚ`.
* Stateful methods become functions from an explicit state (plus the
  values read from the clock and the network, injected as parameters) to
  a result record that also carries the observable effects (number of
  network calls, number of re-auth callback invocations, file writes).
-/

/-- Microseconds per day. -/
def usPerDay : Int := 86400000000

/-- Microseconds per hour. -/
def usPerHour : Int := 3600000000

/-- Python `datetime.weekday()` of an instant: Monday = 0 ... Sunday = 6;
instant 0 is a Thursday (= 3). -/
def pyWeekday (t : Int) : Int := (t / usPerDay + 3) % 7

/-- `api/models.py` `ModelLimit`: per-model rate-limit entry. -/
structure ModelLimit where
  model_name : String
  usage_percent : ℚ
  reset_timestamp : Option Int
  reset_seconds : Option Int
deriving DecidableEq

/-- `api/models.py` `UsageData`: the stored usage snapshot. -/
structure UsageData where
  session_usage_percent : ℚ
  session_reset_seconds : Option Int
  weekly_usage_percent : Option ℚ
  weekly_reset_time : Option Int
  model_limits : Option (List ModelLimit)
  timestamp : Option Int
  page_load_time : Option Int
deriving DecidableEq

/-- `api/models.py` `UsageResponse`.  The source field `pacing_ratio` is
named `pacing` here. -/
structure UsageResponse where
  session_usage_percent : ℚ
  session_reset_seconds : Option Int
  session_reset_formatted : Option String
  weekly_usage_percent : Option ℚ
  weekly_reset_time : Option Int
  week_elapsed_percent : ℚ
  pacing : Option ℚ
  budget_status : String
  model_limits : Option (List ModelLimit)
  last_updated : Option Int
  page_load_time : Option Int
deriving DecidableEq

/-- Integer microseconds elapsed since the anchored week start in the
fallback branch of `_calculate_week_elapsed_percent` (storage.py 136-147):
the window starts at the most recent Thursday 08:00 local time not in the
future of `now`. -/
def fallbackElapsedUs (now : Int) : Int :=
  let daysSinceThursday : Int := (pyWeekday now - 3) % 7
  let weekStart0 : Int := (now / usPerDay) * usPerDay + 8 * usPerHour -
    daysSinceThursday * usPerDay
  if now < weekStart0 then now - (weekStart0 - 7 * usPerDay) else now - weekStart0

/-- Fallback branch of `_calculate_week_elapsed_percent` (storage.py
136-150): percentage of the Thursday-08:00-anchored week elapsed at `now`.
The source performs no clamping in this branch. -/
def thursdayFallbackElapsed (now : Int) : ℚ :=
  ((fallbackElapsedUs now : ℚ) / 1000000) / (7 * 24 * 3600) * 100

/-- `UsageStorage._calculate_week_elapsed_percent` (storage.py 107-150),
with the internal `datetime.now()` read injected as `now`.  The
string-parsing and timezone-stripping of the reset time are identities in
this model, where a reset time is already a naive local instant. -/
def calcWeekElapsedPercent (now : Int) (weeklyResetTime : Option Int) : ℚ :=
  match weeklyResetTime with
  | some weekEnd =>
      let weekStart : Int := weekEnd - 7 * usPerDay
      let elapsedUs : Int := now - weekStart
      let percent : ℚ := ((elapsedUs : ℚ) / 1000000) / (7 * 24 * 3600) * 100
      max 0 (min 100 percent)
  | none => thursdayFallbackElapsed now

/-- Reset-time formatting inside `get_response` (storage.py 87-91).
Python truthiness: `None` and `0` produce no string; `//` is floor
division, `%` the nonnegative remainder (both divisors positive). -/
def formatResetSeconds (s : Option Int) : Option String :=
  match s with
  | none => none
  | some sec =>
      if sec = 0 then none
      else
        let hours := sec / 3600
        let minutes := (sec % 3600) / 60
        some (toString hours ++ "h " ++ toString minutes ++ "m")

/-- Scan of `model_limits` for the pseudo-entry named `all` (storage.py
73-76): first match wins. -/
def findAllLimit : List ModelLimit → Option ℚ
  | [] => none
  | l :: ls => if l.model_name = "all" then some l.usage_percent else findAllLimit ls

/-- Weekly-percentage resolution of `get_response` (storage.py 69-76): the
direct value if set, else the `all` entry of `model_limits`.  An empty
`model_limits` list is falsy in Python and skips the scan, which coincides
with scanning the empty list. -/
def resolveWeeklyPercent (d : Option UsageData) : Option ℚ :=
  match d with
  | none => none
  | some data =>
      match data.weekly_usage_percent with
      | some w => some w
      | none =>
          match data.model_limits with
          | some ls => findAllLimit ls
          | none => none

/-- `UsageStorage.get_response` (storage.py 53-105), with the internal
`datetime.now()` read (performed once, inside the elapsed-week
calculation) injected as `now`.  `d` is the stored `_data` (`none` when
nothing was ever stored or the stored file failed to parse). -/
def getResponse (d : Option UsageData) (now : Int) : UsageResponse :=
  let weeklyResetTime : Option Int :=
    match d with
    | some data => data.weekly_reset_time
    | none => none
  let weekElapsed : ℚ := calcWeekElapsedPercent now weeklyResetTime
  match d with
  | none =>
      { session_usage_percent := 0
        session_reset_seconds := none
        session_reset_formatted := none
        weekly_usage_percent := none
        weekly_reset_time := none
        week_elapsed_percent := weekElapsed
        pacing := none
        budget_status := "unknown"
        model_limits := none
        last_updated := none
        page_load_time := none }
  | some data =>
      let weeklyPercent := resolveWeeklyPercent (some data)
      let pacingAndStatus : Option ℚ × String :=
        match weeklyPercent with
        | some w =>
            if 0 < weekElapsed then
              (some (w / weekElapsed), if w / weekElapsed < 1 then "under" else "over")
            else (none, "unknown")
        | none => (none, "unknown")
      { session_usage_percent := data.session_usage_percent
        session_reset_seconds := data.session_reset_seconds
        session_reset_formatted := formatResetSeconds data.session_reset_seconds
        weekly_usage_percent := weeklyPercent
        weekly_reset_time := weeklyResetTime
        week_elapsed_percent := weekElapsed
        pacing := pacingAndStatus.1
        budget_status := pacingAndStatus.2
        model_limits := data.model_limits
        last_updated := data.timestamp
        page_load_time := data.page_load_time }

/-- `UsageStorage._load` (storage.py 28-36): outer `none` = file missing,
`some none` = JSON decode or pydantic validation error (both caught),
`some (some d)` = parsed and validated snapshot.  `_data` starts as
`None` and stays `None` in the first two cases. -/
def loadUsage : Option (Option UsageData) → Option UsageData
  | some (some d) => some d
  | _ => none

/-- JSON values, modelling the parsed content of the credential files. -/
inductive Json where
  | null : Json
  | bool : Bool → Json
  | num : ℚ → Json
  | str : String → Json
  | arr : List Json → Json
  | obj : List (String × Json) → Json

/-- Lookup of a key in a JSON object's field list (Python dict read; the
first occurrence wins, and a parsed dict has no duplicate keys). -/
def jGet : List (String × Json) → String → Option Json
  | [], _ => none
  | (k, v) :: rest, key => if k = key then some v else jGet rest key

/-- Python dict assignment: replace the value in place when the key
exists, else append the new key at the end. -/
def jSet : List (String × Json) → String → Json → List (String × Json)
  | [], key, v => [(key, v)]
  | (k, w) :: rest, key, v =>
      if k = key then (key, v) :: rest else (k, w) :: jSet rest key v

/-- Python truthiness of a JSON value. -/
def jsonTruthy : Json → Bool
  | Json.null => false
  | Json.bool b => b
  | Json.num q => decide (q ≠ 0)
  | Json.str s => decide (s ≠ "")
  | Json.arr xs => match xs with | [] => false | _ :: _ => true
  | Json.obj fs => match fs with | [] => false | _ :: _ => true

/-- Python truthiness of an optional string: absent keys, `None` values
and the empty string are all falsy. -/
def strTruthy : Option String → Bool
  | none => false
  | some s => decide (s ≠ "")

/-- The in-memory `_credentials` dictionary of `TokenManager`, with the
keys of the private-store schema.  `none` models an absent (or JSON-null)
key.  Values of unexpected JSON types, which Python would carry along
unchecked, are outside the model. -/
structure CredDict where
  access_token : Option String
  refresh_token : Option String
  expires_at : Option ℚ
  token_type : Option String
  scope : Option String
deriving DecidableEq

/-- Parsed JSON body of a successful (HTTP 200) refresh response.  `none`
marks an absent key; defaults are applied by `_update_credentials`. -/
structure TokenResponse where
  access_token : String
  refresh_token : Option String
  expires_in : Option ℚ
  token_type : Option String
  scope : Option String
deriving DecidableEq

/-- Outcome of the token-refresh POST (tokens.py 201-216): `ok` is an HTTP
200 whose body parsed to a well-formed token response; `httpError` is any
other received status; `netError` is a `requests.RequestException`
(connection failure or the mandatory 30-second timeout), caught by the
final handler. -/
inductive NetResult where
  | ok : TokenResponse → NetResult
  | httpError : Nat → NetResult
  | netError : NetResult
deriving DecidableEq

/-- `TokenManager._update_credentials` (tokens.py 242-256), state change
only; the persistence it triggers is modelled in the refresh step.
`dict.get(key, default)` falls back only when the key is absent. -/
def updateCredentials (old : CredDict) (tokens : TokenResponse) (now : ℚ) : CredDict :=
  { access_token := some tokens.access_token
    refresh_token :=
      match tokens.refresh_token with
      | some r => some r
      | none => old.refresh_token
    expires_at := some (now + tokens.expires_in.getD 3600)
    token_type := some (tokens.token_type.getD "Bearer")
    scope := some (tokens.scope.getD "user:inference user:profile") }

/-- Python `int()` truncation toward zero of a rational. -/
def ratTrunc (q : ℚ) : Int := Int.tdiv q.num (q.den : Int)

/-- The three token-field assignments of
`_update_claude_code_credentials` (tokens.py 149-152) applied to the
nested `claudeAiOauth` object: `accessToken` always, `refreshToken` only
when the stored refresh token is truthy, and `expiresAt` as the integer
number of milliseconds (`int(expires_at * 1000)`). -/
def patchOauthFields (o : List (String × Json)) (c : CredDict) (tok : String) :
    List (String × Json) :=
  jSet
    (match c.refresh_token with
     | some r =>
         if r = "" then jSet o "accessToken" (Json.str tok)
         else jSet (jSet o "accessToken" (Json.str tok)) "refreshToken" (Json.str r)
     | none => jSet o "accessToken" (Json.str tok))
    "expiresAt" (Json.num ((ratTrunc (c.expires_at.getD 0 * 1000) : Int) : ℚ))

/-- `TokenManager._update_claude_code_credentials` (tokens.py 138-158).
`file` is the current external-store content (`none` when the file is
missing or unparseable, both of which leave it unwritten); the result is
the newly written content, `none` when nothing is written.  A present
`claudeAiOauth` key whose value is not an object would raise an uncaught
TypeError in the source and is outside the model, as is a `_credentials`
dict without an `access_token` key (an uncaught KeyError); neither is
reachable from the save path after a successful refresh. -/
def updateClaudeCode (file : Option Json) (c : CredDict) : Option Json :=
  match file, c.access_token with
  | some (Json.obj fields), some tok =>
      match jGet fields "claudeAiOauth" with
      | some (Json.obj o) =>
          some (Json.obj (jSet fields "claudeAiOauth"
            (Json.obj (patchOauthFields o c tok))))
      | _ => none
  | _, _ => none

/-- Result of one `_refresh_token` attempt, together with its observable
effects: number of `_trigger_reauth` invocations, number of network
requests issued, the external-store write (if any) and the private-store
write (if any), both performed by `_save_credentials` on success. -/
structure RefreshOut where
  success : Bool
  creds : CredDict
  reauthCalls : Nat
  netCalls : Nat
  extWrite : Option Json
  privWrite : Option CredDict

/-- `TokenManager._refresh_token` (tokens.py 187-240) together with the
persistence performed on success via `_save_credentials` (tokens.py
107-136).  `ucc` is `_using_claude_code`, `ext` the current
external-store content, `now` the `time.time()` read, and `net` the
network outcome (read only when a request is actually issued). -/
def refreshToken (c : CredDict) (ucc : Bool) (ext : Option Json) (now : ℚ)
    (net : NetResult) : RefreshOut :=
  if strTruthy c.refresh_token = false then
    { success := false, creds := c, reauthCalls := 1, netCalls := 0
      extWrite := none, privWrite := none }
  else
    match net with
    | NetResult.ok tokens =>
        let c' := updateCredentials c tokens now
        { success := true, creds := c', reauthCalls := 0, netCalls := 1
          extWrite := if ucc then updateClaudeCode ext c' else none
          privWrite := some c' }
    | NetResult.httpError code =>
        if code = 403 then
          { success := false, creds := c, reauthCalls := 0, netCalls := 1
            extWrite := none, privWrite := none }
        else if 500 ≤ code then
          { success := false, creds := c, reauthCalls := 0, netCalls := 1
            extWrite := none, privWrite := none }
        else if code = 400 ∨ code = 401 then
          { success := false, creds := c, reauthCalls := 1, netCalls := 1
            extWrite := none, privWrite := none }
        else
          { success := false, creds := c, reauthCalls := 0, netCalls := 1
            extWrite := none, privWrite := none }
    | NetResult.netError =>
        { success := false, creds := c, reauthCalls := 0, netCalls := 1
          extWrite := none, privWrite := none }

/-- `TokenManager.has_credentials` (tokens.py 160-162): a credentials dict
is held and it has an `access_token` key. -/
def hasCredentials : Option CredDict → Bool
  | none => false
  | some c => c.access_token.isSome

/-- Result of one `get_access_token` call with its observable effects. -/
structure AccessOut where
  token : Option String
  creds : Option CredDict
  reauthCalls : Nat
  netCalls : Nat
  extWrite : Option Json
  privWrite : Option CredDict

/-- `TokenManager.get_access_token` (tokens.py 164-185), the whole body
executed while holding `_lock`; `now` is the `time.time()` read.  The
refresh is attempted when `now > expires_at - 300` (`REFRESH_BUFFER_SECONDS`),
and the (possibly unchanged) `access_token` entry is returned whether or
not the refresh succeeded. -/
def getAccessToken (creds : Option CredDict) (ucc : Bool) (ext : Option Json)
    (now : ℚ) (net : NetResult) : AccessOut :=
  match creds with
  | none =>
      { token := none, creds := none, reauthCalls := 0, netCalls := 0
        extWrite := none, privWrite := none }
  | some c =>
      if c.access_token.isSome = false then
        { token := none, creds := some c, reauthCalls := 0, netCalls := 0
          extWrite := none, privWrite := none }
      else if c.expires_at.getD 0 - 300 < now then
        let r := refreshToken c ucc ext now net
        { token := r.creds.access_token, creds := some r.creds
          reauthCalls := r.reauthCalls, netCalls := r.netCalls
          extWrite := r.extWrite, privWrite := r.privWrite }
      else
        { token := c.access_token, creds := some c, reauthCalls := 0
          netCalls := 0, extWrite := none, privWrite := none }

/-- String extraction from an optional JSON value (`none` for an absent
key or a null value). -/
def jAsStr : Option Json → Option String
  | some (Json.str s) => some s
  | _ => none

/-- Number extraction from an optional JSON value. -/
def jAsNum : Option Json → Option ℚ
  | some (Json.num q) => some q
  | _ => none

/-- Elementwise string extraction from a JSON list. -/
def allStrs : List Json → Option (List String)
  | [] => some []
  | Json.str s :: rest => (allStrs rest).map (fun ss => s :: ss)
  | _ :: _ => none

/-- Scope join of `_load_credentials` (tokens.py 85): an absent `scopes`
key joins the default empty list; a list of strings is joined with single
spaces; any other shape raises an uncaught TypeError in the source,
modelled as `Except.error`. -/
def joinScopes : Option Json → Except Unit String
  | none => Except.ok ""
  | some (Json.arr xs) =>
      match allStrs xs with
      | some ss => Except.ok (String.intercalate " " ss)
      | none => Except.error ()
  | some _ => Except.error ()

/-- Reading of `refreshToken` from the external store (tokens.py 82):
absent key and null are both `None`; a non-string value would be stored
unchecked by Python and is outside the model (`Except.error`). -/
def readRefresh : Option Json → Except Unit (Option String)
  | none => Except.ok none
  | some Json.null => Except.ok none
  | some (Json.str r) => Except.ok (some r)
  | some _ => Except.error ()

/-- Reading of `expiresAt` from the external store (tokens.py 83): the
value (default 0, in milliseconds) divided by 1000.  Dividing a
non-number raises an uncaught TypeError, modelled as `Except.error`. -/
def readExpiresAt : Option Json → Except Unit ℚ
  | none => Except.ok (0 / 1000)
  | some (Json.num q) => Except.ok (q / 1000)
  | some _ => Except.error ()

/-- Mapping of the external (Claude Code) store into the internal schema,
`_load_credentials` lines 70-91.  `Except.error` marks an exception that
escapes the `except (json.JSONDecodeError, IOError, KeyError)` handler —
for example the AttributeError raised by `data.get` when the parsed JSON
is not an object, or by `oauth_data.get` when `claudeAiOauth` is not an
object.  `Except.ok none` means "treated as not found" (fall through to
the private store).  A truthy non-string `accessToken`, which Python
would store unchecked, is outside the model. -/
def tryExternal (j : Json) : Except Unit (Option CredDict) :=
  match j with
  | Json.obj fields =>
      match (jGet fields "claudeAiOauth").getD (Json.obj []) with
      | Json.obj o =>
          match jGet o "accessToken" with
          | none => Except.ok none
          | some (Json.str a) =>
              if a = "" then Except.ok none
              else
                match readRefresh (jGet o "refreshToken"),
                      readExpiresAt (jGet o "expiresAt"),
                      joinScopes (jGet o "scopes") with
                | Except.ok rt, Except.ok ea, Except.ok sc =>
                    Except.ok (some
                      { access_token := some a, refresh_token := rt
                        expires_at := some ea, token_type := some "Bearer"
                        scope := some sc })
                | _, _, _ => Except.error ()
          | some v => if jsonTruthy v then Except.error () else Except.ok none
      | _ => Except.error ()
  | _ => Except.error ()

/-- Private-store load, `_load_credentials` lines 94-103: the parsed JSON
is stored as the credentials unchecked.  An object is mapped onto the
typed record (ill-typed values behave as absent keys downstream); any
other JSON value behaves downstream as a record holding no keys. -/
def tryPrivate : Json → Option CredDict
  | Json.obj fs =>
      some { access_token := jAsStr (jGet fs "access_token")
             refresh_token := jAsStr (jGet fs "refresh_token")
             expires_at := jAsNum (jGet fs "expires_at")
             token_type := jAsStr (jGet fs "token_type")
             scope := jAsStr (jGet fs "scope") }
  | _ => none

/-- `TokenManager._load_credentials` (tokens.py 62-105).  Each store input
is `none` when the file is missing, `some none` when it exists but JSON
parsing failed (caught `json.JSONDecodeError`), and `some (some j)` for a
parsed value `j`.  The result pairs the loaded credentials (if any) with
the final `_using_claude_code` flag; `Except.error` is an exception
escaping the load path. -/
def loadCredentials (ext priv : Option (Option Json)) :
    Except Unit (Option CredDict × Bool) :=
  let fromPrivate : Except Unit (Option CredDict × Bool) :=
    match priv with
    | some (some j) => Except.ok (tryPrivate j, false)
    | _ => Except.ok (none, false)
  match ext with
  | some (some j) =>
      match tryExternal j with
      | Except.error () => Except.error ()
      | Except.ok (some c) => Except.ok (some c, true)
      | Except.ok none => fromPrivate
  | _ => fromPrivate

/-- Shared mutable state of the token manager visible to
`get_access_token`: credentials, the `_using_claude_code` flag and the
external store content (re-read on every external write). -/
structure SysState where
  creds : Option CredDict
  ucc : Bool
  ext : Option Json

/-- One serialized `get_access_token` body: result token, next state and
the number of network refresh requests it issued. -/
def gatStep (s : SysState) (now : ℚ) (net : NetResult) :
    Option String × SysState × Nat :=
  let o := getAccessToken s.creds s.ucc s.ext now net
  (o.token,
   { creds := o.creds, ucc := s.ucc
     ext := match o.extWrite with | some j => some j | none => s.ext },
   o.netCalls)

/-- N `get_access_token` calls issued concurrently: the single `_lock`
held around each whole body serializes them, so any interleaving executes
as this sequential composition (in arrival order), with the wall clock
frozen at `now` and the token endpoint answering every request with
`net`.  Returns the N results, the final state and the total number of
network refresh requests. -/
def runCalls : Nat → SysState → ℚ → NetResult → List (Option String) × SysState × Nat
  | 0, s, _, _ => ([], s, 0)
  | Nat.succ n, s, now, net =>
      let step := gatStep s now net
      let rest := runCalls n step.2.1 now net
      (step.1 :: rest.1, rest.2.1, step.2.2 + rest.2.2)

/-- Accessor on an optional external-store file: top-level key. -/
def topGet (file : Option Json) (k : String) : Option Json :=
  match file with
  | some (Json.obj fs) => jGet fs k
  | _ => none

/-- Accessor on an optional external-store file: key of the nested
`claudeAiOauth` object. -/
def oauthGet (file : Option Json) (k : String) : Option Json :=
  match topGet file "claudeAiOauth" with
  | some (Json.obj o) => jGet o k
  | _ => none

/-- Top-level key list of an optional external-store file, in order. -/
def topKeys (file : Option Json) : Option (List String) :=
  match file with
  | some (Json.obj fs) => some (fs.map Prod.fst)
  | _ => none

/-- Concrete credential record used by the evaluation theorems. -/
def credA : CredDict :=
  { access_token := some "tok", refresh_token := some "r"
    expires_at := some 1000, token_type := some "Bearer"
    scope := some "user:inference" }

/-- Concrete manager state used by the evaluation theorems. -/
def stateA : SysState :=
  { creds := some credA, ucc := false, ext := none }

/-- Concrete nested `claudeAiOauth` object used by the evaluation
theorems, including a key unrelated to the token fields. -/
def oauthO : List (String × Json) :=
  [("accessToken", Json.str "A"), ("refreshToken", Json.str "R"),
   ("expiresAt", Json.num 1700000000000),
   ("scopes", Json.arr [Json.str "user:inference", Json.str "user:profile"]),
   ("subscriptionType", Json.str "max")]

/-- Concrete external-store file content used by the evaluation theorems,
with an unrelated top-level key. -/
def extFileA : List (String × Json) :=
  [("claudeAiOauth", Json.obj oauthO), ("otherKey", Json.str "keep")]

/-- Concrete post-refresh credential record used by the evaluation
theorems. -/
def credB : CredDict :=
  { access_token := some "A2", refresh_token := some "R2"
    expires_at := some 1800000000, token_type := some "Bearer"
    scope := some "user:inference user:profile" }

/-- Concrete successful refresh-response body used by the evaluation
theorems. -/
def tkB : TokenResponse :=
  { access_token := "newtok", refresh_token := some "newr"
    expires_in := some 3600, token_type := none, scope := none }

/-- The fallback elapsed time is between 0 and 7 days of microseconds:
the anchored week start is never in the future of `now` and never more
than 7 days in its past. -/
theorem fallbackElapsedUs_bounds (now : Int) :
    0 ≤ fallbackElapsedUs now ∧ fallbackElapsedUs now ≤ 7 * usPerDay := by
  simp only [fallbackElapsedUs, pyWeekday]
  have h0 : (usPerDay : Int) ≠ 0 := by norm_num [usPerDay]
  have hpos : (0 : Int) < usPerDay := by norm_num [usPerDay]
  have htod1 : 0 ≤ now % usPerDay := Int.emod_nonneg now h0
  have htod2 : now % usPerDay < usPerDay := Int.emod_lt_of_pos now hpos
  have hsum : usPerDay * (now / usPerDay) + now % usPerDay = now :=
    Int.ediv_add_emod now usPerDay
  have hdst1 : 0 ≤ ((now / usPerDay + 3) % 7 - 3) % 7 :=
    Int.emod_nonneg _ (by norm_num)
  have hdst2 : ((now / usPerDay + 3) % 7 - 3) % 7 < 7 :=
    Int.emod_lt_of_pos _ (by norm_num)
  constructor
  · split
    · rename_i h
      simp only [usPerDay, usPerHour] at *
      linarith
    · rename_i h
      simp only [usPerDay, usPerHour] at *
      linarith
  · split
    · rename_i h
      simp only [usPerDay, usPerHour] at *
      linarith
    · rename_i h
      simp only [usPerDay, usPerHour] at *
      linarith

/-- Scaling a microsecond count in [0, 7 days] to a percentage of the
week lands in [0, 100]. -/
theorem elapsedPercent_bounds (e : Int) (h0 : 0 ≤ e) (h7 : e ≤ 604800000000) :
    0 ≤ ((e : ℚ) / 1000000) / (7 * 24 * 3600) * 100 ∧
    ((e : ℚ) / 1000000) / (7 * 24 * 3600) * 100 ≤ 100 := by
  have he : ((e : ℚ) / 1000000) / (7 * 24 * 3600) * 100 = (e : ℚ) / 6048000000 := by
    ring
  rw [he]
  constructor
  · apply div_nonneg _ (by norm_num)
    exact_mod_cast h0
  · rw [div_le_iff₀ (by norm_num)]
    have hc : (e : ℚ) ≤ 604800000000 := by exact_mod_cast h7
    linarith

/-- The elapsed-week percentage is never negative. -/
theorem calcWeekElapsed_nonneg (now : Int) (wrt : Option Int) :
    0 ≤ calcWeekElapsedPercent now wrt := by
  cases wrt with
  | none =>
      have h := fallbackElapsedUs_bounds now
      have h2 := elapsedPercent_bounds (fallbackElapsedUs now) h.1
        (by simpa [usPerDay] using h.2)
      simpa [calcWeekElapsedPercent, thursdayFallbackElapsed] using h2.1
  | some w =>
      simp only [calcWeekElapsedPercent]
      exact le_max_left 0 _

/-- The elapsed-week percentage never exceeds 100. -/
theorem calcWeekElapsed_le (now : Int) (wrt : Option Int) :
    calcWeekElapsedPercent now wrt ≤ 100 := by
  cases wrt with
  | none =>
      have h := fallbackElapsedUs_bounds now
      have h2 := elapsedPercent_bounds (fallbackElapsedUs now) h.1
        (by simpa [usPerDay] using h.2)
      simpa [calcWeekElapsedPercent, thursdayFallbackElapsed] using h2.2
  | some w =>
      simp only [calcWeekElapsedPercent]
      exact max_le (by norm_num) (min_le_left _ _)

/-- C2: for every value of `now` and every `weekly_reset_time` (present
or absent, arbitrarily far in the past or future), the week-elapsed
computation returns a value in [0, 100] inclusive — including the
Thursday-08:00 fallback branch, which performs no explicit clamping. -/
theorem week_elapsed_in_range (now : Int) (wrt : Option Int) :
    0 ≤ calcWeekElapsedPercent now wrt ∧ calcWeekElapsedPercent now wrt ≤ 100 :=
  ⟨calcWeekElapsed_nonneg now wrt, calcWeekElapsed_le now wrt⟩

/-- Characterization of the pacing/status pair computed by
`get_response` when a snapshot is stored. -/
theorem getResponse_pacing_status (data : UsageData) (now : Int) :
    ((getResponse (some data) now).pacing, (getResponse (some data) now).budget_status) =
      match resolveWeeklyPercent (some data) with
      | some w =>
          if 0 < calcWeekElapsedPercent now data.weekly_reset_time then
            (some (w / calcWeekElapsedPercent now data.weekly_reset_time),
             if w / calcWeekElapsedPercent now data.weekly_reset_time < 1 then "under"
             else "over")
          else (none, "unknown")
      | none => (none, "unknown") := rfl

/-- C1: for every stored snapshot, `budget_status` is `under` iff the
pacing value exists and is < 1, `over` iff it exists and is ≥ 1, and
`unknown` iff the resolved weekly percentage is absent or the elapsed
percentage is 0, in which case (and only in which case) the pacing value
is absent; no other combination is producible by `get_response`. -/
theorem budget_status_partition (d : Option UsageData) (now : Int) :
    ((getResponse d now).budget_status = "under" ↔
      ∃ p, (getResponse d now).pacing = some p ∧ p < 1) ∧
    ((getResponse d now).budget_status = "over" ↔
      ∃ p, (getResponse d now).pacing = some p ∧ 1 ≤ p) ∧
    ((getResponse d now).budget_status = "unknown" ↔
      resolveWeeklyPercent d = none ∨ (getResponse d now).week_elapsed_percent = 0) ∧
    ((getResponse d now).pacing = none ↔ (getResponse d now).budget_status = "unknown") ∧
    ((getResponse d now).budget_status = "under" ∨
      (getResponse d now).budget_status = "over" ∨
      (getResponse d now).budget_status = "unknown") := by
  cases d with
  | none =>
      have hst : (getResponse none now).budget_status = "unknown" := rfl
      have hp : (getResponse none now).pacing = none := rfl
      have hres : resolveWeeklyPercent (none : Option UsageData) = none := rfl
      refine ⟨?_, ?_, ?_, ?_, ?_⟩
      · rw [hst, hp]
        constructor
        · intro h
          exact absurd h (by decide)
        · rintro ⟨p, hp', _⟩
          cases hp'
      · rw [hst, hp]
        constructor
        · intro h
          exact absurd h (by decide)
        · rintro ⟨p, hp', _⟩
          cases hp'
      · rw [hst, hres]
        simp
      · rw [hst, hp]
        simp
      · right; right; exact hst
  | some data =>
      have hW : (getResponse (some data) now).week_elapsed_percent =
          calcWeekElapsedPercent now data.weekly_reset_time := rfl
      have h0 : 0 ≤ calcWeekElapsedPercent now data.weekly_reset_time :=
        calcWeekElapsed_nonneg now data.weekly_reset_time
      have key := getResponse_pacing_status data now
      cases hres : resolveWeeklyPercent (some data) with
      | none =>
          rw [hres] at key
          simp only [Prod.mk.injEq] at key
          obtain ⟨kp, ks⟩ := key
          refine ⟨?_, ?_, ?_, ?_, ?_⟩
          · rw [ks, kp]
            constructor
            · intro h
              exact absurd h (by decide)
            · rintro ⟨p, hp', _⟩
              cases hp'
          · rw [ks, kp]
            constructor
            · intro h
              exact absurd h (by decide)
            · rintro ⟨p, hp', _⟩
              cases hp'
          · rw [ks]
            simp
          · rw [ks, kp]
            simp
          · right; right; exact ks
      | some w =>
          rw [hres] at key
          simp only [] at key
          by_cases hC : 0 < calcWeekElapsedPercent now data.weekly_reset_time
          · rw [if_pos hC] at key
            by_cases hr : w / calcWeekElapsedPercent now data.weekly_reset_time < 1
            · rw [if_pos hr] at key
              simp only [Prod.mk.injEq] at key
              obtain ⟨kp, ks⟩ := key
              refine ⟨?_, ?_, ?_, ?_, ?_⟩
              · rw [ks, kp]
                exact ⟨fun _ => ⟨_, rfl, hr⟩, fun _ => rfl⟩
              · rw [ks, kp]
                constructor
                · intro h
                  exact absurd h (by decide)
                · rintro ⟨p, hp', h1⟩
                  injection hp' with hpe
                  rw [hpe] at hr
                  linarith
              · rw [ks, hW]
                constructor
                · intro h
                  exact absurd h (by decide)
                · rintro (h | h)
                  · exact Option.noConfusion h
                  · rw [h] at hC; exact absurd hC (by norm_num)
              · rw [ks, kp]
                constructor
                · intro h
                  cases h
                · intro h
                  exact absurd h (by decide)
              · left; exact ks
            · rw [if_neg hr] at key
              simp only [Prod.mk.injEq] at key
              obtain ⟨kp, ks⟩ := key
              push_neg at hr
              refine ⟨?_, ?_, ?_, ?_, ?_⟩
              · rw [ks, kp]
                constructor
                · intro h
                  exact absurd h (by decide)
                · rintro ⟨p, hp', h1⟩
                  injection hp' with hpe
                  subst hpe
                  linarith
              · rw [ks, kp]
                exact ⟨fun _ => ⟨_, rfl, hr⟩, fun _ => rfl⟩
              · rw [ks, hW]
                constructor
                · intro h
                  exact absurd h (by decide)
                · rintro (h | h)
                  · exact Option.noConfusion h
                  · rw [h] at hC; exact absurd hC (by norm_num)
              · rw [ks, kp]
                constructor
                · intro h
                  cases h
                · intro h
                  exact absurd h (by decide)
              · right; left; exact ks
          · rw [if_neg hC] at key
            simp only [Prod.mk.injEq] at key
            obtain ⟨kp, ks⟩ := key
            have hzero : calcWeekElapsedPercent now data.weekly_reset_time = 0 :=
              le_antisymm (not_lt.mp hC) h0
            refine ⟨?_, ?_, ?_, ?_, ?_⟩
            · rw [ks, kp]
              constructor
              · intro h
                exact absurd h (by decide)
              · rintro ⟨p, hp', _⟩
                cases hp'
            · rw [ks, kp]
              constructor
              · intro h
                exact absurd h (by decide)
              · rintro ⟨p, hp', _⟩
                cases hp'
            · rw [ks, hW]
              simp [hzero]
            · rw [ks, kp]
              simp
            · right; right; exact ks

/-- C7: the formatted reset string is produced with integer floor
division — `s // 3600` hours and `(s % 3600) // 60` minutes, no rounding,
no seconds — for every positive number of seconds, while 0 or an absent
value yields no string; `get_response` exposes exactly this formatting. -/
theorem reset_seconds_format :
    (∀ (d : UsageData) (now : Int),
      (getResponse (some d) now).session_reset_formatted =
        formatResetSeconds d.session_reset_seconds) ∧
    (∀ s : Nat, 0 < s →
      formatResetSeconds (some (s : Int)) =
        some (toString (s / 3600) ++ "h " ++ toString (s % 3600 / 60) ++ "m")) ∧
    formatResetSeconds (some 3661) = some "1h 1m" ∧
    formatResetSeconds (some 59) = some "0h 0m" ∧
    formatResetSeconds (some 0) = none ∧
    formatResetSeconds none = none := by
  refine ⟨fun d now => rfl, ?_, by decide, by decide, rfl, rfl⟩
  intro s hs
  have hne : (s : Int) ≠ 0 := by
    exact_mod_cast Nat.pos_iff_ne_zero.mp hs
  simp only [formatResetSeconds, if_neg hne]
  have h1 : (s : Int) / 3600 = ((s / 3600 : Nat) : Int) := by omega
  have h2 : (s : Int) % 3600 / 60 = ((s % 3600 / 60 : Nat) : Int) := by omega
  rw [h1, h2]
  rfl

/-- Closed instance of the formatting law at 3661 seconds. -/
theorem reset_seconds_format_witness :
    formatResetSeconds (some ((3661 : Nat) : Int)) =
      some (toString ((3661 : Nat) / 3600) ++ "h " ++
        toString ((3661 : Nat) % 3600 / 60) ++ "m") :=
  reset_seconds_format.2.1 3661 (by decide)

/-- C8: the derived-metrics computation is a pure function of the stored
snapshot and the injected clock value — two invocations on the same
snapshot and the same `now` produce identical responses. -/
theorem derived_metrics_deterministic (d : Option UsageData) (n1 n2 : Int)
    (h : n1 = n2) : getResponse d n1 = getResponse d n2 := by
  rw [h]

/-- Closed instance of determinism at a concrete snapshot and clock. -/
theorem derived_metrics_deterministic_witness :
    getResponse none 0 = getResponse none 0 :=
  derived_metrics_deterministic none 0 0 rfl

/-- C10: with no stored snapshot (never stored, or the stored file failed
to parse, both of which leave `_data` as `None`), `get_response` still
returns a well-formed response: session usage 0, status `unknown`, no
pacing value, and the week-elapsed percentage taken from the
Thursday-08:00 fallback window. -/
theorem empty_storage_response (now : Int) :
    getResponse none now =
      { session_usage_percent := 0, session_reset_seconds := none
        session_reset_formatted := none, weekly_usage_percent := none
        weekly_reset_time := none
        week_elapsed_percent := thursdayFallbackElapsed now
        pacing := none, budget_status := "unknown", model_limits := none
        last_updated := none, page_load_time := none } ∧
    loadUsage none = none ∧ loadUsage (some none) = none :=
  ⟨rfl, rfl, rfl⟩

/-- A failed refresh attempt leaves the credential record unchanged and
writes nothing. -/
theorem refresh_fail_frame (c : CredDict) (ucc : Bool) (ext : Option Json)
    (now : ℚ) (net : NetResult)
    (h : (refreshToken c ucc ext now net).success = false) :
    (refreshToken c ucc ext now net).creds = c ∧
    (refreshToken c ucc ext now net).extWrite = none ∧
    (refreshToken c ucc ext now net).privWrite = none := by
  cases hrt : strTruthy c.refresh_token with
  | false => simp [refreshToken, hrt]
  | true =>
      cases net with
      | ok t => simp [refreshToken, hrt] at h
      | netError => simp [refreshToken, hrt]
      | httpError code =>
          simp only [refreshToken, hrt]
          split_ifs <;> simp

/-- C3: one refresh attempt signals re-auth exactly once iff the refresh
token is absent or the response status is 400 or 401; a 403, a status of
500 or more, or a network error or timeout never signals, returns
failure, and leaves the stored credential (including the prior access
token) unchanged; with no refresh token, no network request is issued. -/
theorem refresh_reauth_precision (c : CredDict) (ucc : Bool) (ext : Option Json)
    (now : ℚ) (net : NetResult) :
    ((refreshToken c ucc ext now net).reauthCalls = 1 ↔
      (strTruthy c.refresh_token = false ∨
        net = NetResult.httpError 400 ∨ net = NetResult.httpError 401)) ∧
    (refreshToken c ucc ext now net).reauthCalls ≤ 1 ∧
    (strTruthy c.refresh_token = false →
      (refreshToken c ucc ext now net).netCalls = 0 ∧
      (refreshToken c ucc ext now net).success = false ∧
      (refreshToken c ucc ext now net).creds = c) ∧
    (strTruthy c.refresh_token = true →
      (net = NetResult.httpError 403 ∨
        (∃ k, net = NetResult.httpError k ∧ 500 ≤ k) ∨
        net = NetResult.netError) →
      (refreshToken c ucc ext now net).reauthCalls = 0 ∧
      (refreshToken c ucc ext now net).success = false ∧
      (refreshToken c ucc ext now net).creds = c ∧
      (refreshToken c ucc ext now net).extWrite = none ∧
      (refreshToken c ucc ext now net).privWrite = none) := by
  cases hrt : strTruthy c.refresh_token with
  | false =>
      refine ⟨by simp [refreshToken, hrt], by simp [refreshToken, hrt], ?_, ?_⟩
      · intro _
        simp [refreshToken, hrt]
      · intro h
        exact absurd h (by decide)
  | true =>
      cases net with
      | ok t =>
          refine ⟨by simp [refreshToken, hrt], by simp [refreshToken, hrt], ?_, ?_⟩
          · intro h
            exact absurd h (by decide)
          · rintro _ (h | ⟨k, hk, _⟩ | h)
            · cases h
            · cases hk
            · cases h
      | netError =>
          refine ⟨by simp [refreshToken, hrt], by simp [refreshToken, hrt], ?_, ?_⟩
          · intro h
            exact absurd h (by decide)
          · intro _ _
            simp [refreshToken, hrt]
      | httpError code =>
          refine ⟨?_, ?_, ?_, ?_⟩
          · simp only [refreshToken, hrt, Bool.true_eq_false, if_false,
              NetResult.httpError.injEq]
            split_ifs with h1 h2 h3
            · simp only [show (0 : Nat) ≠ 1 by decide, false_iff]
              rintro (h | h | h)
              · cases h
              · omega
              · omega
            · simp only [show (0 : Nat) ≠ 1 by decide, false_iff]
              rintro (h | h | h)
              · cases h
              · omega
              · omega
            · simp only [true_iff]
              right
              exact h3
            · simp only [show (0 : Nat) ≠ 1 by decide, false_iff]
              rintro (h | h | h)
              · cases h
              · exact h3 (Or.inl h)
              · exact h3 (Or.inr h)
          · simp only [refreshToken, hrt, Bool.true_eq_false, if_false]
            split_ifs <;> simp
          · intro h
            exact absurd h (by decide)
          · rintro _ (h | ⟨k, hk, hk5⟩ | h)
            · injection h with he
              simp [refreshToken, hrt, he]
            · injection hk with he
              subst he
              have h403 : code ≠ 403 := by omega
              have h4 : ¬(code = 400 ∨ code = 401) := by omega
              simp [refreshToken, hrt, h403, hk5, h4]
            · cases h

/-- Closed instance of the re-auth precision on a 403 response: no
callback, failure, credentials kept. -/
theorem refresh_reauth_precision_witness :
    (refreshToken credA false none 0 (NetResult.httpError 403)).reauthCalls = 0 ∧
    (refreshToken credA false none 0 (NetResult.httpError 403)).success = false ∧
    (refreshToken credA false none 0 (NetResult.httpError 403)).creds = credA ∧
    (refreshToken credA false none 0 (NetResult.httpError 403)).extWrite = none ∧
    (refreshToken credA false none 0 (NetResult.httpError 403)).privWrite = none :=
  (refresh_reauth_precision credA false none 0 (NetResult.httpError 403)).2.2.2
    (by decide) (Or.inl rfl)

/-- C4: `get_access_token` returns `None` immediately with no network
call when no credentials (no `access_token` entry) are held; otherwise,
when a refresh is needed and the refresh attempt fails, it still returns
the last-known stored access token. -/
theorem access_token_fallback (creds : Option CredDict) (ucc : Bool)
    (ext : Option Json) (now : ℚ) (net : NetResult) :
    (hasCredentials creds = false →
      (getAccessToken creds ucc ext now net).token = none ∧
      (getAccessToken creds ucc ext now net).netCalls = 0) ∧
    (∀ c t, creds = some c → c.access_token = some t →
      c.expires_at.getD 0 - 300 < now →
      (refreshToken c ucc ext now net).success = false →
      (getAccessToken creds ucc ext now net).token = some t) := by
  constructor
  · intro h
    cases creds with
    | none => exact ⟨rfl, rfl⟩
    | some c =>
        have hc : c.access_token.isSome = false := by
          simpa [hasCredentials] using h
        simp [getAccessToken, hc]
  · rintro c t rfl hat hexp hfail
    have hframe := refresh_fail_frame c ucc ext now net hfail
    have hsome : c.access_token.isSome = true := by rw [hat]; rfl
    simp [getAccessToken, hsome, hexp, hframe.1, hat]

/-- Closed instance of the stale-token fallback: refresh needed, network
down, the prior token is still returned. -/
theorem access_token_fallback_witness :
    (getAccessToken (some credA) false none 900 NetResult.netError).token =
      some "tok" :=
  (access_token_fallback (some credA) false none 900 NetResult.netError).2 credA
    "tok" rfl rfl (by norm_num [credA]) (by decide)

/-- C6 (code bug): a valid-JSON external store whose top level is an
array — well-formed JSON with every required field missing — makes the
load path raise (the `AttributeError` from `data.get` escapes the
`except (json.JSONDecodeError, IOError, KeyError)` handler) instead of
falling through to the private store; by contrast an unparseable external
file (`some none`) does fall back to the private store, and two missing
files leave the manager without credentials. -/
theorem load_crashes_on_array :
    (∀ priv : Option (Option Json),
      loadCredentials (some (some (Json.arr []))) priv = Except.error ()) ∧
    (∀ j : Json, loadCredentials (some none) (some (some j)) =
      Except.ok (tryPrivate j, false)) ∧
    loadCredentials none none = Except.ok (none, false) :=
  ⟨fun _ => rfl, fun _ => rfl, rfl⟩

/-- Setting a key makes it readable back. -/
theorem jGet_jSet_same (l : List (String × Json)) (k : String) (v : Json) :
    jGet (jSet l k v) k = some v := by
  induction l with
  | nil => simp [jGet, jSet]
  | cons hd tl ih =>
      obtain ⟨k1, v1⟩ := hd
      by_cases h : k1 = k
      · simp [jSet, h, jGet]
      · simp [jSet, h, jGet, ih]

/-- Setting a key leaves every other key unchanged. -/
theorem jGet_jSet_ne (l : List (String × Json)) (k k' : String) (v : Json)
    (h : k' ≠ k) : jGet (jSet l k v) k' = jGet l k' := by
  induction l with
  | nil => simp [jGet, jSet, Ne.symm h]
  | cons hd tl ih =>
      obtain ⟨k1, v1⟩ := hd
      by_cases h1 : k1 = k
      · subst h1
        simp [jSet, jGet, Ne.symm h]
      · simp only [jSet, if_neg h1, jGet]
        by_cases h2 : k1 = k'
        · simp [h2]
        · simp [h2, ih]

/-- Setting an existing key preserves the key list (and its order). -/
theorem jSet_map_fst (l : List (String × Json)) (k : String) (v : Json)
    (h : (jGet l k).isSome = true) :
    (jSet l k v).map Prod.fst = l.map Prod.fst := by
  induction l with
  | nil => simp [jGet] at h
  | cons hd tl ih =>
      obtain ⟨k1, v1⟩ := hd
      by_cases h1 : k1 = k
      · subst h1
        simp [jSet]
      · have h' : (jGet tl k).isSome = true := by
          simpa [jGet, h1] using h
        simp [jSet, h1, ih h']

/-- The patched oauth object carries the new access token. -/
theorem patchOauth_accessToken (o : List (String × Json)) (c : CredDict)
    (tok : String) :
    jGet (patchOauthFields o c tok) "accessToken" = some (Json.str tok) := by
  unfold patchOauthFields
  cases hcr : c.refresh_token with
  | none =>
      rw [jGet_jSet_ne _ _ _ _ (by decide)]
      exact jGet_jSet_same _ _ _
  | some r =>
      simp only []
      by_cases hr : r = ""
      · rw [if_pos hr, jGet_jSet_ne _ _ _ _ (by decide)]
        exact jGet_jSet_same _ _ _
      · rw [if_neg hr, jGet_jSet_ne _ _ _ _ (by decide),
          jGet_jSet_ne _ _ _ _ (by decide)]
        exact jGet_jSet_same _ _ _

/-- The patched oauth object carries the expiry in integer milliseconds. -/
theorem patchOauth_expiresAt (o : List (String × Json)) (c : CredDict)
    (tok : String) :
    jGet (patchOauthFields o c tok) "expiresAt" =
      some (Json.num ((ratTrunc (c.expires_at.getD 0 * 1000) : Int) : ℚ)) := by
  unfold patchOauthFields
  exact jGet_jSet_same _ _ _

/-- A truthy stored refresh token is patched into the oauth object. -/
theorem patchOauth_refresh_some (o : List (String × Json)) (c : CredDict)
    (tok r : String) (hcr : c.refresh_token = some r) (hr : r ≠ "") :
    jGet (patchOauthFields o c tok) "refreshToken" = some (Json.str r) := by
  unfold patchOauthFields
  rw [hcr]
  simp only []
  rw [if_neg hr, jGet_jSet_ne _ _ _ _ (by decide)]
  exact jGet_jSet_same _ _ _

/-- Without a stored refresh token, the oauth object's `refreshToken` key
is left as it was. -/
theorem patchOauth_refresh_none (o : List (String × Json)) (c : CredDict)
    (tok : String) (hcr : c.refresh_token = none) :
    jGet (patchOauthFields o c tok) "refreshToken" = jGet o "refreshToken" := by
  unfold patchOauthFields
  rw [hcr]
  simp only []
  rw [jGet_jSet_ne _ _ _ _ (by decide), jGet_jSet_ne _ _ _ _ (by decide)]

/-- Every key other than the three token fields is untouched by the
patch. -/
theorem patchOauth_other (o : List (String × Json)) (c : CredDict)
    (tok : String) (k : String) (h1 : k ≠ "accessToken")
    (h2 : k ≠ "refreshToken") (h3 : k ≠ "expiresAt") :
    jGet (patchOauthFields o c tok) k = jGet o k := by
  unfold patchOauthFields
  cases hcr : c.refresh_token with
  | none => rw [jGet_jSet_ne _ _ _ _ h3, jGet_jSet_ne _ _ _ _ h1]
  | some r =>
      simp only []
      by_cases hr : r = ""
      · rw [if_pos hr, jGet_jSet_ne _ _ _ _ h3, jGet_jSet_ne _ _ _ _ h1]
      · rw [if_neg hr, jGet_jSet_ne _ _ _ _ h3, jGet_jSet_ne _ _ _ _ h2,
          jGet_jSet_ne _ _ _ _ h1]

/-- C5: round trip with the external credential store.  Loading a
well-formed external-store file with `expiresAt = 1700000000000`
milliseconds yields an internal `expires_at` of 1700000000 seconds
(source `external_store`, i.e. `_using_claude_code = true`); a subsequent
successful refresh reports success, writes the refreshed record to the
private store (`privWrite`), and writes back the external file, patching
only the `accessToken`, `refreshToken` and `expiresAt` entries inside the
nested `claudeAiOauth` object — with `expires_at` converted back to
integer milliseconds — while leaving every other key (top-level and
nested) and the top-level key order unchanged. -/
theorem external_store_round_trip
    (fields o : List (String × Json)) (a sc : String) (rt : Option String)
    (c : CredDict) (tk : TokenResponse) (now : ℚ)
    (hoauth : jGet fields "claudeAiOauth" = some (Json.obj o))
    (hacc : jGet o "accessToken" = some (Json.str a))
    (hane : a ≠ "")
    (hrt : readRefresh (jGet o "refreshToken") = Except.ok rt)
    (hexp : jGet o "expiresAt" = some (Json.num 1700000000000))
    (hsc : joinScopes (jGet o "scopes") = Except.ok sc)
    (hcrt : strTruthy c.refresh_token = true) :
    (∀ priv, loadCredentials (some (some (Json.obj fields))) priv =
        Except.ok (some { access_token := some a, refresh_token := rt
                          expires_at := some 1700000000, token_type := some "Bearer"
                          scope := some sc }, true)) ∧
    (refreshToken c true (some (Json.obj fields)) now (NetResult.ok tk)).success =
      true ∧
    (refreshToken c true (some (Json.obj fields)) now (NetResult.ok tk)).privWrite =
      some (updateCredentials c tk now) ∧
    (refreshToken c true (some (Json.obj fields)) now (NetResult.ok tk)).creds =
      updateCredentials c tk now ∧
    (refreshToken c true (some (Json.obj fields)) now (NetResult.ok tk)).extWrite =
      updateClaudeCode (some (Json.obj fields)) (updateCredentials c tk now) ∧
    (∀ k, k ≠ "claudeAiOauth" →
      topGet (refreshToken c true (some (Json.obj fields)) now
        (NetResult.ok tk)).extWrite k = jGet fields k) ∧
    topKeys (refreshToken c true (some (Json.obj fields)) now
      (NetResult.ok tk)).extWrite = some (fields.map Prod.fst) ∧
    oauthGet (refreshToken c true (some (Json.obj fields)) now
      (NetResult.ok tk)).extWrite "accessToken" = some (Json.str tk.access_token) ∧
    oauthGet (refreshToken c true (some (Json.obj fields)) now
      (NetResult.ok tk)).extWrite "expiresAt" =
      some (Json.num ((ratTrunc
        ((updateCredentials c tk now).expires_at.getD 0 * 1000) : Int) : ℚ)) ∧
    (∀ r, (updateCredentials c tk now).refresh_token = some r → r ≠ "" →
      oauthGet (refreshToken c true (some (Json.obj fields)) now
        (NetResult.ok tk)).extWrite "refreshToken" = some (Json.str r)) ∧
    ((updateCredentials c tk now).refresh_token = none →
      oauthGet (refreshToken c true (some (Json.obj fields)) now
        (NetResult.ok tk)).extWrite "refreshToken" = jGet o "refreshToken") ∧
    (∀ k, k ≠ "accessToken" → k ≠ "refreshToken" → k ≠ "expiresAt" →
      oauthGet (refreshToken c true (some (Json.obj fields)) now
        (NetResult.ok tk)).extWrite k = jGet o k) := by
  have hq : (1700000000000 : ℚ) / 1000 = 1700000000 := by norm_num
  have hre : refreshToken c true (some (Json.obj fields)) now (NetResult.ok tk) =
      { success := true, creds := updateCredentials c tk now, reauthCalls := 0
        netCalls := 1
        extWrite := updateClaudeCode (some (Json.obj fields))
          (updateCredentials c tk now)
        privWrite := some (updateCredentials c tk now) } := by
    simp [refreshToken, hcrt]
  have hext : (refreshToken c true (some (Json.obj fields)) now
      (NetResult.ok tk)).extWrite =
      updateClaudeCode (some (Json.obj fields)) (updateCredentials c tk now) := by
    rw [hre]
  have hca : (updateCredentials c tk now).access_token = some tk.access_token := rfl
  have hupd : updateClaudeCode (some (Json.obj fields))
      (updateCredentials c tk now) =
      some (Json.obj (jSet fields "claudeAiOauth"
        (Json.obj (patchOauthFields o (updateCredentials c tk now)
          tk.access_token)))) := by
    simp only [updateClaudeCode, hca, hoauth]
  have hoget : ∀ k,
      oauthGet (updateClaudeCode (some (Json.obj fields))
        (updateCredentials c tk now)) k =
      jGet (patchOauthFields o (updateCredentials c tk now) tk.access_token) k := by
    intro k
    rw [hupd]
    simp only [oauthGet, topGet]
    rw [jGet_jSet_same]
  refine ⟨?_, ?_, ?_, ?_, ?_, ?_, ?_, ?_, ?_, ?_, ?_, ?_⟩
  · intro priv
    have hload : tryExternal (Json.obj fields) = Except.ok (some
        { access_token := some a, refresh_token := rt
          expires_at := some 1700000000, token_type := some "Bearer"
          scope := some sc }) := by
      simp only [tryExternal, hoauth, Option.getD_some, hacc, if_neg hane, hrt,
        hexp, hsc, readExpiresAt, hq]
    simp only [loadCredentials, hload]
  · rw [hre]
  · rw [hre]
  · rw [hre]
  · rw [hre]
  · intro k hk
    rw [hext, hupd]
    simp only [topGet]
    exact jGet_jSet_ne _ _ _ _ hk
  · rw [hext, hupd]
    simp only [topKeys]
    exact congrArg some (jSet_map_fst _ _ _ (by rw [hoauth]; rfl))
  · rw [hext, hoget]
    exact patchOauth_accessToken o (updateCredentials c tk now) tk.access_token
  · rw [hext, hoget]
    exact patchOauth_expiresAt o (updateCredentials c tk now) tk.access_token
  · intro r hcr hr
    rw [hext, hoget]
    exact patchOauth_refresh_some o (updateCredentials c tk now) tk.access_token
      r hcr hr
  · intro hcr
    rw [hext, hoget]
    exact patchOauth_refresh_none o (updateCredentials c tk now) tk.access_token hcr
  · intro k h1 h2 h3
    rw [hext, hoget]
    exact patchOauth_other o (updateCredentials c tk now) tk.access_token k h1 h2 h3

/-- Closed instance of the external-store round trip on a concrete file:
the millisecond expiry loads as seconds; a successful refresh reports
success, writes the refreshed record to the private store, and its
external write-back preserves the unrelated top-level key, the unrelated
nested key and the key order while patching the token fields. -/
theorem external_store_round_trip_witness :
    loadCredentials (some (some (Json.obj extFileA))) none =
      Except.ok (some { access_token := some "A", refresh_token := some "R"
                        expires_at := some 1700000000, token_type := some "Bearer"
                        scope := some "user:inference user:profile" }, true) ∧
    (refreshToken credA true (some (Json.obj extFileA)) 900
      (NetResult.ok tkB)).success = true ∧
    (refreshToken credA true (some (Json.obj extFileA)) 900
      (NetResult.ok tkB)).privWrite = some (updateCredentials credA tkB 900) ∧
    topGet (refreshToken credA true (some (Json.obj extFileA)) 900
      (NetResult.ok tkB)).extWrite "otherKey" = jGet extFileA "otherKey" ∧
    oauthGet (refreshToken credA true (some (Json.obj extFileA)) 900
      (NetResult.ok tkB)).extWrite "subscriptionType" =
      jGet oauthO "subscriptionType" ∧
    oauthGet (refreshToken credA true (some (Json.obj extFileA)) 900
      (NetResult.ok tkB)).extWrite "accessToken" = some (Json.str "newtok") ∧
    oauthGet (refreshToken credA true (some (Json.obj extFileA)) 900
      (NetResult.ok tkB)).extWrite "refreshToken" = some (Json.str "newr") ∧
    topKeys (refreshToken credA true (some (Json.obj extFileA)) 900
      (NetResult.ok tkB)).extWrite = some (extFileA.map Prod.fst) := by
  obtain ⟨h1, h2, h3, h4, h5, h6, h7, h8, h9, h10, h11, h12⟩ :=
    external_store_round_trip extFileA oauthO "A" "user:inference user:profile"
      (some "R") credA tkB 900 rfl rfl (by decide) rfl rfl rfl (by decide)
  exact ⟨h1 none, h2, h3, h6 "otherKey" (by decide),
    h12 "subscriptionType" (by decide) (by decide) (by decide), h8,
    h10 "newr" rfl (by decide), h7⟩

/-- With a truthy refresh token, every refresh attempt issues exactly one
network request. -/
theorem refresh_netCalls_one (c : CredDict) (ucc : Bool) (ext : Option Json)
    (now : ℚ) (net : NetResult) (hrt : strTruthy c.refresh_token = true) :
    (refreshToken c ucc ext now net).netCalls = 1 := by
  cases net with
  | ok t => simp [refreshToken, hrt]
  | netError => simp [refreshToken, hrt]
  | httpError code =>
      simp only [refreshToken, hrt, Bool.true_eq_false, if_false]
      split_ifs <;> rfl

/-- A `get_access_token` body that needs no refresh returns the stored
token, changes nothing and issues no network request. -/
theorem gatStep_noRefresh (s : SysState) (c : CredDict) (t : String)
    (now : ℚ) (net : NetResult) (hc : s.creds = some c)
    (ht : c.access_token = some t)
    (hfresh : ¬(c.expires_at.getD 0 - 300 < now)) :
    gatStep s now net = (some t, s, 0) := by
  have hsome : c.access_token.isSome = true := by rw [ht]; rfl
  simp only [gatStep, getAccessToken, hc, hsome, Bool.true_eq_false,
    if_false, if_neg hfresh, ht]
  rw [← hc]
  simp

/-- A `get_access_token` body whose refresh attempt fails returns the
prior stored token, leaves the state unchanged and issues exactly one
network request. -/
theorem gatStep_failRefresh (s : SysState) (c : CredDict) (t : String)
    (now : ℚ) (net : NetResult) (hc : s.creds = some c)
    (ht : c.access_token = some t)
    (hrt : strTruthy c.refresh_token = true)
    (hneed : c.expires_at.getD 0 - 300 < now)
    (hfail : (refreshToken c s.ucc s.ext now net).success = false) :
    gatStep s now net = (some t, s, 1) := by
  have hsome : c.access_token.isSome = true := by rw [ht]; rfl
  have hframe := refresh_fail_frame c s.ucc s.ext now net hfail
  have hnet1 := refresh_netCalls_one c s.ucc s.ext now net hrt
  simp only [gatStep, getAccessToken, hc, hsome, Bool.true_eq_false,
    if_false, if_pos hneed, hframe.1, hframe.2.1, hframe.2.2, hnet1, ht]
  rw [← hc]
  simp

/-- Iterating a step that fixes the state multiplies its network-call
count and replicates its result. -/
theorem runCalls_steady (n : Nat) (s : SysState) (now : ℚ) (net : NetResult)
    (t : String) (k : Nat) (hstep : gatStep s now net = (some t, s, k)) :
    runCalls n s now net = (List.replicate n (some t), s, n * k) := by
  induction n with
  | zero => simp [runCalls]
  | succ m ih =>
      simp only [runCalls, hstep, ih]
      simp [List.replicate_succ]
      ring

/-- C9 counterexample: two concurrent `get_access_token` calls with the
token inside the 300-second buffer and the refresh endpoint answering
500 issue TWO network refresh requests — not at most one — because each
serialized call repeats the failed refresh; both calls return the same
stale token. -/
theorem concurrent_refresh_not_single :
    (runCalls 2 stateA 900 (NetResult.httpError 500)).2.2 = 2 ∧
    ¬((runCalls 2 stateA 900 (NetResult.httpError 500)).2.2 ≤ 1) ∧
    (runCalls 2 stateA 900 (NetResult.httpError 500)).1 =
      [some "tok", some "tok"] := by
  have hneed : (credA.expires_at.getD 0 - 300 : ℚ) < 900 := by norm_num [credA]
  have hfail : (refreshToken credA stateA.ucc stateA.ext 900
      (NetResult.httpError 500)).success = false := by decide
  have hstep := gatStep_failRefresh stateA credA "tok" 900
    (NetResult.httpError 500) rfl rfl (by decide) hneed hfail
  have hrun := runCalls_steady 2 stateA 900 (NetResult.httpError 500) "tok" 1 hstep
  rw [hrun]
  exact ⟨rfl, by decide, rfl⟩

/-- C9 (amended): the single lock serializes the N concurrent calls.
When the refresh fails transiently, each of the N serialized calls
performs its own refresh attempt — N network requests, all failing
identically — and all N calls return the same last-known stored token
with the state unchanged.  When the refresh succeeds with an `expires_in`
of at least the 300-second buffer, at most one network refresh request is
made and all N calls return the same new token. -/
theorem concurrent_refresh_serialized (N : Nat) (s : SysState) (c : CredDict)
    (t : String) (now : ℚ) (net : NetResult)
    (hc : s.creds = some c) (ht : c.access_token = some t)
    (hrt : strTruthy c.refresh_token = true)
    (hneed : c.expires_at.getD 0 - 300 < now) :
    ((net = NetResult.httpError 403 ∨
        (∃ k, net = NetResult.httpError k ∧ 500 ≤ k) ∨
        net = NetResult.netError) →
      runCalls N s now net = (List.replicate N (some t), s, N)) ∧
    (∀ tk, net = NetResult.ok tk → 300 ≤ tk.expires_in.getD 3600 →
      (runCalls N s now net).1 = List.replicate N (some tk.access_token) ∧
      (runCalls N s now net).2.2 ≤ 1) := by
  constructor
  · intro htr
    have hfail : (refreshToken c s.ucc s.ext now net).success = false := by
      rcases htr with h | ⟨k, hk, hk5⟩ | h
      · subst h
        simp [refreshToken, hrt]
      · subst hk
        have h403 : ¬(k = 403) := by omega
        simp [refreshToken, hrt, h403, hk5]
      · subst h
        simp [refreshToken, hrt]
    have hstep := gatStep_failRefresh s c t now net hc ht hrt hneed hfail
    have hrun := runCalls_steady N s now net t 1 hstep
    simpa using hrun
  · rintro tk rfl h300
    cases N with
    | zero => exact ⟨rfl, by simp [runCalls]⟩
    | succ m =>
        have hsome : c.access_token.isSome = true := by rw [ht]; rfl
        have hgat : getAccessToken s.creds s.ucc s.ext now (NetResult.ok tk) =
            { token := some tk.access_token
              creds := some (updateCredentials c tk now), reauthCalls := 0
              netCalls := 1
              extWrite := if s.ucc then
                updateClaudeCode s.ext (updateCredentials c tk now) else none
              privWrite := some (updateCredentials c tk now) } := by
          simp only [getAccessToken, hc, hsome, Bool.true_eq_false, if_false,
            if_pos hneed, refreshToken, hrt]
          rfl
        have htok1 : (gatStep s now (NetResult.ok tk)).1 = some tk.access_token := by
          simp [gatStep, hgat]
        have hk1 : (gatStep s now (NetResult.ok tk)).2.2 = 1 := by
          simp [gatStep, hgat]
        have hs1creds : (gatStep s now (NetResult.ok tk)).2.1.creds =
            some (updateCredentials c tk now) := by
          simp [gatStep, hgat]
        have hat' : (updateCredentials c tk now).access_token =
            some tk.access_token := rfl
        have hfresh : ¬((updateCredentials c tk now).expires_at.getD 0 - 300 < now) := by
          simp only [updateCredentials, Option.getD_some]
          push_neg
          linarith
        have hstep2 := gatStep_noRefresh (gatStep s now (NetResult.ok tk)).2.1
          (updateCredentials c tk now) tk.access_token now (NetResult.ok tk)
          hs1creds hat' hfresh
        have hrest := runCalls_steady m (gatStep s now (NetResult.ok tk)).2.1 now
          (NetResult.ok tk) tk.access_token 0 hstep2
        constructor
        · show (runCalls (m + 1) s now (NetResult.ok tk)).1 = _
          simp only [runCalls, hrest, htok1]
          simp [List.replicate_succ]
        · show (runCalls (m + 1) s now (NetResult.ok tk)).2.2 ≤ 1
          simp only [runCalls, hrest, hk1]
          simp

/-- Closed instance of the amended concurrency property: two serialized
calls with a successful refresh make at most one network request and both
return the new token. -/
theorem concurrent_refresh_serialized_witness :
    (runCalls 2 stateA 900 (NetResult.ok tkB)).1 =
      List.replicate 2 (some "newtok") ∧
    (runCalls 2 stateA 900 (NetResult.ok tkB)).2.2 ≤ 1 :=
  (concurrent_refresh_serialized 2 stateA credA "tok" 900 (NetResult.ok tkB)
    rfl rfl (by decide) (by norm_num [credA])).2 tkB rfl (by norm_num [tkB])
